import Mathlib

/-!
Formal model of the streaming-response consumer `fetchSSE` and the
surrounding settings helpers (`getSettings`, `getApiKey`, `jsonToActions`)
from `src/common/components/WordBookViewer.tsx`.

Strings are modelled as lists of Unicode code points (`List Nat`), byte
streams as lists of bytes (`List Nat`, each < 256).  A response body is the
list of chunks successively returned by `reader.read()`.  The observable
behaviour of one `fetchSSE` invocation is a trace of callback and resource
actions plus an outcome (`Except.error ()` models an uncaught rejection of
the returned promise).
-/

namespace GptTutor

/-- JavaScript values as produced by `JSON.parse` or `resp.json()`:
null, booleans, numbers, strings, arrays and objects. -/
inductive JsonVal where
  | null : JsonVal
  | bool (b : Bool) : JsonVal
  | num (n : Int) : JsonVal
  | str (s : List Nat) : JsonVal
  | arr (xs : List JsonVal) : JsonVal
  | obj (fields : List (List Nat × JsonVal)) : JsonVal

/-- Observable actions of one `fetchSSE` invocation, in order:
the `onStatusCode`, `onMessage` and `onError` callback invocations plus the
acquisition (`resp.body!.getReader()`) and release (`reader.releaseLock()`)
of the body reader. -/
inductive Act where
  | statusCode (c : Nat) : Act
  | message (d : List Nat) : Act
  | errorCb (e : JsonVal) : Act
  | getReader : Act
  | releaseLock : Act

/-- The part of a `Response` that `fetchSSE` observes: the status code, the
result of `resp.json()` (`Except.error ()` models a body that is not valid
JSON, so that the parse rejects), the successive byte chunks produced by the
body reader, and whether the read after the last chunk fails instead of
signalling `done`. -/
structure Response where
  status : Nat
  jsonBody : Except Unit JsonVal
  chunks : List (List Nat)
  readFail : Bool

/-- Result of one `fetchSSE` invocation: the action trace and whether the
returned promise resolves (`Except.ok ()`) or rejects. -/
structure FetchResult where
  trace : List Act
  outcome : Except Unit Unit

/-! ### The WHATWG utf-8 decoder

`fetchSSE` decodes every chunk with `new TextDecoder().decode(value)`:
a fresh decoder per chunk, non-fatal (invalid input becomes U+FFFD) and
non-streaming (an incomplete trailing sequence also becomes U+FFFD).
The model below is the WHATWG Encoding Standard utf-8 decoder. -/

/-- State of the WHATWG utf-8 decoder between bytes. -/
structure Utf8State where
  codePoint : Nat
  bytesSeen : Nat
  bytesNeeded : Nat
  lowerBoundary : Nat
  upperBoundary : Nat
deriving DecidableEq

def utf8Init : Utf8State :=
  { codePoint := 0, bytesSeen := 0, bytesNeeded := 0, lowerBoundary := 0x80, upperBoundary := 0xBF }

/-- Process one byte in the initial decoder state (bytes needed = 0). -/
def utf8Begin (b : Nat) : Utf8State × List Nat :=
  if b ≤ 0x7F then (utf8Init, [b])
  else if 0xC2 ≤ b ∧ b ≤ 0xDF then
    ({ codePoint := b % 32, bytesSeen := 0, bytesNeeded := 1,
       lowerBoundary := 0x80, upperBoundary := 0xBF }, [])
  else if 0xE0 ≤ b ∧ b ≤ 0xEF then
    ({ codePoint := b % 16, bytesSeen := 0, bytesNeeded := 2,
       lowerBoundary := if b = 0xE0 then 0xA0 else 0x80,
       upperBoundary := if b = 0xED then 0x9F else 0xBF }, [])
  else if 0xF0 ≤ b ∧ b ≤ 0xF4 then
    ({ codePoint := b % 8, bytesSeen := 0, bytesNeeded := 3,
       lowerBoundary := if b = 0xF0 then 0x90 else 0x80,
       upperBoundary := if b = 0xF4 then 0x8F else 0xBF }, [])
  else (utf8Init, [0xFFFD])

/-- Process one byte of utf-8 input, emitting the decoded code points
(U+FFFD on error, with the offending byte reprocessed as a lead byte,
as the WHATWG algorithm prescribes). -/
def utf8Step (s : Utf8State) (b : Nat) : Utf8State × List Nat :=
  if s.bytesNeeded = 0 then utf8Begin b
  else if s.lowerBoundary ≤ b ∧ b ≤ s.upperBoundary then
    let cp := s.codePoint * 64 + b % 64
    if s.bytesSeen + 1 = s.bytesNeeded then (utf8Init, [cp])
    else ({ codePoint := cp, bytesSeen := s.bytesSeen + 1, bytesNeeded := s.bytesNeeded,
            lowerBoundary := 0x80, upperBoundary := 0xBF }, [])
  else
    let p := utf8Begin b
    (p.1, 0xFFFD :: p.2)

/-- Run the utf-8 decoder over a byte list, returning the final state and
the emitted code points. -/
def utf8Run : Utf8State → List Nat → Utf8State × List Nat
  | s, [] => (s, [])
  | s, b :: rest =>
    let p := utf8Step s b
    let q := utf8Run p.1 rest
    (q.1, p.2 ++ q.2)

/-- Model of `new TextDecoder().decode(bytes)`: a fresh decoder is run over
the whole chunk and flushed, so an incomplete trailing sequence becomes one
U+FFFD.  This is exactly what the source does once per chunk. -/
def textDecode (bytes : List Nat) : List Nat :=
  let p := utf8Run utf8Init bytes
  p.2 ++ (if p.1.bytesNeeded = 0 then [] else [0xFFFD])

/-- A byte list is utf-8 self-contained when decoding it leaves the decoder
back in its initial state, i.e. no character is cut at its end. -/
def utf8Complete (bytes : List Nat) : Prop :=
  (utf8Run utf8Init bytes).1 = utf8Init

instance : DecidablePred utf8Complete := fun bytes =>
  inferInstanceAs (Decidable ((utf8Run utf8Init bytes).1 = utf8Init))

/-! ### The event-stream grammar decoder

Modelled from the spec: the `eventsource-parser` library used by `fetchSSE`
is an external collaborator whose source is not in this repository.  The
spec gives its contract: feed(text) yields zero or more completed events;
partial lines are buffered across feeds; a record is a sequence of
`field: value` lines terminated by a blank line (terminators are LF, CR or
CRLF, a CRLF pair possibly split across feeds); the `data` field values of
a record, joined by LF, form the payload; a record with no data lines
dispatches nothing; only events carrying message data are forwarded, so
fields other than `data` do not affect the forwarded payload. -/

/-- State of the event-stream grammar decoder: the buffered partial line,
the accumulated data of the current record (each data line followed by an
LF), and whether the previous character was a CR (so that a following LF is
part of the same terminator). -/
structure SSEState where
  line : List Nat
  data : List Nat
  sawCR : Bool
deriving DecidableEq

def sseInit : SSEState := { line := [], data := [], sawCR := false }

/-- Split a line at its first colon: the field name and the remainder
(which still starts with the colon when one is present). -/
def splitField : List Nat → List Nat × List Nat
  | [] => ([], [])
  | c :: rest =>
    if c = 58 then ([], c :: rest)
    else
      let p := splitField rest
      (c :: p.1, p.2)

/-- Remove one leading space from a field value, as the grammar prescribes. -/
def stripSpace : List Nat → List Nat
  | 32 :: rest => rest
  | l => l

/-- The code points of the field name data. -/
def dataField : List Nat := [100, 97, 116, 97]

/-- Process one completed line against the accumulated record data,
returning the new data and the dispatched payloads (the blank line
dispatches the record when its data is nonempty, with the trailing LF
removed). -/
def processLine (line data : List Nat) : List Nat × List (List Nat) :=
  if line = [] then
    if data = [] then ([], []) else ([], [data.dropLast])
  else
    let p := splitField line
    let value :=
      match p.2 with
      | 58 :: v => stripSpace v
      | _ => []
    if p.1 = dataField then (data ++ value ++ [10], []) else (data, [])

/-- Process one character of decoded text. -/
def sseStep (s : SSEState) (c : Nat) : SSEState × List (List Nat) :=
  if s.sawCR ∧ c = 10 then
    ({ line := s.line, data := s.data, sawCR := false }, [])
  else if c = 13 then
    let p := processLine s.line s.data
    ({ line := [], data := p.1, sawCR := true }, p.2)
  else if c = 10 then
    let p := processLine s.line s.data
    ({ line := [], data := p.1, sawCR := false }, p.2)
  else
    ({ line := s.line ++ [c], data := s.data, sawCR := false }, [])

/-- Feed a list of characters to the grammar decoder, returning the final
state and the dispatched payloads in order. -/
def sseFeed : SSEState → List Nat → SSEState × List (List Nat)
  | s, [] => (s, [])
  | s, c :: rest =>
    let p := sseStep s c
    let q := sseFeed p.1 rest
    (q.1, p.2 ++ q.2)

/-! ### fetchSSE -/

/-- The body of the read loop of `fetchSSE` for one chunk: decode the chunk
with a fresh non-streaming text decoder and feed the text to the grammar
decoder, collecting the payloads passed to `onMessage`.  It is total: the
replacement-mode decoder and the grammar decoder never throw. -/
def procStep (s : SSEState) (chunk : List Nat) : Except Unit (SSEState × List (List Nat)) :=
  Except.ok (sseFeed s (textDecode chunk))

/-- The read loop of `fetchSSE`, generic in the per-chunk processing step
(so that a step that throws, modelling a failing decoder, is covered):
reads chunks until `done`, forwarding each completed payload to
`onMessage`; a failing read after the chunks, or a failing step, makes the
loop exit with an error. -/
def readLoop (step : SSEState → List Nat → Except Unit (SSEState × List (List Nat))) :
    SSEState → List (List Nat) → Bool → List Act × Except Unit Unit
  | _, [], readFail => ([], if readFail then Except.error () else Except.ok ())
  | s, chunk :: rest, readFail =>
    match step s chunk with
    | Except.error _ => ([], Except.error ())
    | Except.ok p =>
      let q := readLoop step p.1 rest readFail
      (p.2.map Act.message ++ q.1, q.2)

/-- `fetchSSE`, generic in the per-chunk processing step.  Mirrors the
source line by line: call `onStatusCode(resp.status)`; on a non-200 status
call `onError(await resp.json())` and return (an unparseable body rejects
with no callback); on a 200 status acquire the body reader, run the read
loop and release the reader lock on every exit path (the `finally`). -/
def fetchSSEWith (step : SSEState → List Nat → Except Unit (SSEState × List (List Nat)))
    (resp : Response) : FetchResult :=
  if resp.status ≠ 200 then
    match resp.jsonBody with
    | Except.error _ => { trace := [Act.statusCode resp.status], outcome := Except.error () }
    | Except.ok v =>
      { trace := [Act.statusCode resp.status, Act.errorCb v], outcome := Except.ok () }
  else
    let q := readLoop step sseInit resp.chunks resp.readFail
    { trace := Act.statusCode resp.status :: Act.getReader :: (q.1 ++ [Act.releaseLock]),
      outcome := q.2 }

/-- The `fetchSSE` of the source: the read loop instantiated with the
actual per-chunk step (fresh text decoder, then grammar decoder). -/
def fetchSSE (resp : Response) : FetchResult :=
  fetchSSEWith procStep resp

/-- The `onMessage` payloads of a trace, in order. -/
def messagesOf (tr : List Act) : List (List Nat) :=
  tr.filterMap fun a => match a with | Act.message d => some d | _ => none

/-- The `onError` arguments of a trace, in order. -/
def errorsOf (tr : List Act) : List JsonVal :=
  tr.filterMap fun a => match a with | Act.errorCb e => some e | _ => none

def isStatusAct : Act → Bool
  | Act.statusCode _ => true
  | _ => false

def isReleaseAct : Act → Bool
  | Act.releaseLock => true
  | _ => false

def isReaderAct : Act → Bool
  | Act.getReader => true
  | _ => false

/-- Whether the invocation completed without an uncaught failure. -/
def completedOk (r : FetchResult) : Bool :=
  match r.outcome with
  | Except.ok _ => true
  | Except.error _ => false

/-! ### Compositionality lemmas -/

lemma utf8Run_append (s : Utf8State) (a b : List Nat) :
    utf8Run s (a ++ b) =
      ((utf8Run (utf8Run s a).1 b).1, (utf8Run s a).2 ++ (utf8Run (utf8Run s a).1 b).2) := by
  induction a generalizing s with
  | nil => simp [utf8Run]
  | cons x xs ih => simp [utf8Run, ih]

lemma textDecode_complete {c : List Nat} (h : utf8Complete c) :
    textDecode c = (utf8Run utf8Init c).2 := by
  have hh : (utf8Run utf8Init c).1 = utf8Init := h
  simp only [textDecode, hh]
  simp [utf8Init]

/-- Decoding a concatenation of self-contained chunks with one decoder run
gives exactly the concatenation of the per-chunk fresh-decoder outputs. -/
lemma utf8Run_flatten {chunks : List (List Nat)} (h : ∀ c ∈ chunks, utf8Complete c) :
    utf8Run utf8Init chunks.flatten = (utf8Init, (chunks.map textDecode).flatten) := by
  induction chunks with
  | nil => simp [utf8Run]
  | cons c rest ih =>
    have hc : utf8Complete c := h c (by simp)
    have hrest : ∀ x ∈ rest, utf8Complete x := fun x hx => h x (by simp [hx])
    have hfst : (utf8Run utf8Init c).1 = utf8Init := hc
    simp only [List.flatten_cons, List.map_cons, utf8Run_append, hfst, ih hrest,
      textDecode_complete hc]

lemma sseFeed_append (s : SSEState) (a b : List Nat) :
    sseFeed s (a ++ b) =
      ((sseFeed (sseFeed s a).1 b).1, (sseFeed s a).2 ++ (sseFeed (sseFeed s a).1 b).2) := by
  induction a generalizing s with
  | nil => simp [sseFeed]
  | cons x xs ih => simp [sseFeed, ih]

/-- The trace produced by the read loop of the source (total decode and
feed step) is exactly the grammar-decoder output over the concatenation of
the per-chunk decoded texts, wrapped as `onMessage` actions. -/
lemma readLoop_trace (s : SSEState) (chunks : List (List Nat)) (rf : Bool) :
    (readLoop procStep s chunks rf).1 =
      ((sseFeed s ((chunks.map textDecode).flatten)).2).map Act.message := by
  induction chunks generalizing s with
  | nil => simp [readLoop, sseFeed]
  | cons c rest ih =>
    simp [readLoop, procStep, ih, sseFeed_append]

lemma messagesOf_append (a b : List Act) :
    messagesOf (a ++ b) = messagesOf a ++ messagesOf b := by
  simp [messagesOf]

lemma messagesOf_map_message (l : List (List Nat)) :
    messagesOf (l.map Act.message) = l := by
  induction l with
  | nil => rfl
  | cons x xs ih =>
    show x :: messagesOf (xs.map Act.message) = x :: xs
    rw [ih]

lemma errorsOf_map_message (l : List (List Nat)) :
    errorsOf (l.map Act.message) = [] := by
  induction l with
  | nil => rfl
  | cons x xs ih =>
    show errorsOf (xs.map Act.message) = []
    exact ih

lemma countP_map_message (p : Act → Bool) (h : ∀ d, p (Act.message d) = false)
    (l : List (List Nat)) : (l.map Act.message).countP p = 0 := by
  induction l with
  | nil => rfl
  | cons x xs ih => simp [List.countP_cons, h, ih]

/-- Whatever the per-chunk step does (including throwing), the read loop
itself emits only `onMessage` actions: no release action. -/
lemma readLoop_countP_release (step : SSEState → List Nat → Except Unit (SSEState × List (List Nat)))
    (s : SSEState) (chunks : List (List Nat)) (rf : Bool) :
    ((readLoop step s chunks rf).1).countP isReleaseAct = 0 := by
  induction chunks generalizing s with
  | nil => simp [readLoop]
  | cons c rest ih =>
    simp only [readLoop]
    cases h : step s c with
    | error e => simp
    | ok p => simp [List.countP_append, ih, countP_map_message isReleaseAct (fun d => rfl)]

/-- Whatever the per-chunk step does, the read loop emits no reader
acquisition action. -/
lemma readLoop_countP_reader (step : SSEState → List Nat → Except Unit (SSEState × List (List Nat)))
    (s : SSEState) (chunks : List (List Nat)) (rf : Bool) :
    ((readLoop step s chunks rf).1).countP isReaderAct = 0 := by
  induction chunks generalizing s with
  | nil => simp [readLoop]
  | cons c rest ih =>
    simp only [readLoop]
    cases h : step s c with
    | error e => simp
    | ok p => simp [List.countP_append, ih, countP_map_message isReaderAct (fun d => rfl)]

/-- On a success status, the `onMessage` payload sequence of `fetchSSE` is
the grammar-decoder output over the single-run decode of the whole byte
stream, provided every chunk is utf-8 self-contained. -/
lemma fetchSSE_messages_eq (resp : Response) (h : resp.status = 200)
    (hc : ∀ c ∈ resp.chunks, utf8Complete c) :
    messagesOf (fetchSSE resp).trace =
      (sseFeed sseInit (utf8Run utf8Init resp.chunks.flatten).2).2 := by
  have hflat : ((resp.chunks.map textDecode).flatten) =
      (utf8Run utf8Init resp.chunks.flatten).2 := by
    rw [utf8Run_flatten hc]
  have htrace : (fetchSSE resp).trace =
      Act.statusCode resp.status :: Act.getReader ::
        ((readLoop procStep sseInit resp.chunks resp.readFail).1 ++ [Act.releaseLock]) := by
    simp [fetchSSE, fetchSSEWith, h]
  rw [htrace, readLoop_trace]
  show messagesOf
      (((sseFeed sseInit ((resp.chunks.map textDecode).flatten)).2).map Act.message ++
        [Act.releaseLock]) = _
  rw [messagesOf_append, messagesOf_map_message, hflat]
  simp [messagesOf]

lemma errorsOf_append (a b : List Act) :
    errorsOf (a ++ b) = errorsOf a ++ errorsOf b := by
  simp [errorsOf]

/-- On a success status the `onError` callback never fires: the trace
consists of the status act, the reader acts and message acts only. -/
lemma fetchSSE_success_errorsOf (resp : Response) (h : resp.status = 200) :
    errorsOf (fetchSSE resp).trace = [] := by
  have htrace : (fetchSSE resp).trace =
      Act.statusCode resp.status :: Act.getReader ::
        ((readLoop procStep sseInit resp.chunks resp.readFail).1 ++ [Act.releaseLock]) := by
    simp [fetchSSE, fetchSSEWith, h]
  rw [htrace, readLoop_trace]
  show errorsOf
      ((((sseFeed sseInit ((resp.chunks.map textDecode).flatten)).2).map Act.message) ++
        [Act.releaseLock]) = []
  rw [errorsOf_append, errorsOf_map_message]
  rfl

lemma utf8Step_ascii {c : Nat} (hc : c ≤ 0x7F) :
    utf8Step utf8Init c = (utf8Init, [c]) := by
  simp [utf8Step, utf8Begin, utf8Init, hc]

lemma utf8Run_ascii {l : List Nat} (h : ∀ c ∈ l, c ≤ 0x7F) :
    utf8Run utf8Init l = (utf8Init, l) := by
  induction l with
  | nil => rfl
  | cons c rest ih =>
    have hc : c ≤ 0x7F := h c (by simp)
    have hrest : ∀ x ∈ rest, x ≤ 0x7F := fun x hx => h x (by simp [hx])
    simp [utf8Run, utf8Step_ascii hc, ih hrest]

/-- A chunk of 7-bit characters decodes to itself. -/
lemma textDecode_ascii {l : List Nat} (h : ∀ c ∈ l, c ≤ 0x7F) :
    textDecode l = l := by
  simp only [textDecode, utf8Run_ascii h]
  simp [utf8Init]

/-- Feeding characters that are neither LF nor CR only extends the
buffered partial line: nothing is dispatched. -/
lemma sseFeed_plain {l : List Nat} (h : ∀ c ∈ l, c ≠ 10 ∧ c ≠ 13)
    (line data : List Nat) :
    sseFeed { line := line, data := data, sawCR := false } l =
      ({ line := line ++ l, data := data, sawCR := false }, []) := by
  induction l generalizing line with
  | nil => simp [sseFeed]
  | cons c rest ih =>
    have hc := h c (by simp)
    have hrest : ∀ x ∈ rest, x ≠ 10 ∧ x ≠ 13 := fun x hx => h x (by simp [hx])
    simp [sseFeed, sseStep, hc.1, hc.2, ih hrest, List.append_assoc]

/-! ### Outcome predicates for the callback-discipline invariant -/

/-- The first allowed outcome: the invocation completes normally and no
`onError` call occurred (only zero or more `onMessage` calls). -/
def msgThenComplete (r : FetchResult) : Prop :=
  completedOk r = true ∧ (errorsOf r.trace).length = 0

/-- The second allowed outcome: exactly one `onError` call occurred. -/
def singleError (r : FetchResult) : Prop :=
  (errorsOf r.trace).length = 1

/-- Exactly one of the two allowed outcomes occurs. -/
def exactlyOneOutcome (r : FetchResult) : Prop :=
  (msgThenComplete r ∧ ¬ singleError r) ∨ (¬ msgThenComplete r ∧ singleError r)

instance (r : FetchResult) : Decidable (msgThenComplete r) :=
  inferInstanceAs (Decidable (_ ∧ _))

instance (r : FetchResult) : Decidable (singleError r) :=
  inferInstanceAs (Decidable (_ = _))

instance (r : FetchResult) : Decidable (exactlyOneOutcome r) :=
  inferInstanceAs (Decidable (_ ∨ _))

/-! ### C1: chunking-invariance -/

/-- A 200 response carrying data: é (U+00E9, utf-8 bytes C3 A9) in one
chunk. -/
def respC1one : Response :=
  { status := 200, jsonBody := Except.error (),
    chunks := [[100, 97, 116, 97, 58, 32, 195, 169, 10, 10]], readFail := false }

/-- The same byte stream with the chunk boundary inside the two-byte
character: the first chunk ends with the lead byte C3. -/
def respC1split : Response :=
  { status := 200, jsonBody := Except.error (),
    chunks := [[100, 97, 116, 97, 58, 32, 195], [169, 10, 10]], readFail := false }

/-- C1: the claimed chunking-invariance fails on the code.  The same
well-formed event-stream bytes, split once inside a two-byte character,
produce a different `onMessage` sequence: the unsplit stream yields the
character U+00E9, the split stream yields two U+FFFD replacement
characters, because the source constructs a fresh non-streaming
`TextDecoder` for every chunk instead of one streaming decoder. -/
theorem fetchSSE_decoder_divergence :
    respC1one.chunks.flatten = respC1split.chunks.flatten ∧
    respC1one.status = 200 ∧ respC1split.status = 200 ∧
    messagesOf (fetchSSE respC1one).trace = [[0xE9]] ∧
    messagesOf (fetchSSE respC1split).trace = [[0xFFFD, 0xFFFD]] ∧
    messagesOf (fetchSSE respC1one).trace ≠ messagesOf (fetchSSE respC1split).trace := by
  decide

/-- Chunking-invariance does hold whenever no chunk boundary cuts a
character: for two arbitrary chunkings of the same byte stream in which
every chunk is utf-8 self-contained, the `onMessage` sequences agree. -/
theorem fetchSSE_chunking_invariance_aligned (r1 r2 : Response)
    (h1 : r1.status = 200) (h2 : r2.status = 200)
    (hc1 : ∀ c ∈ r1.chunks, utf8Complete c) (hc2 : ∀ c ∈ r2.chunks, utf8Complete c)
    (hbytes : r1.chunks.flatten = r2.chunks.flatten) :
    messagesOf (fetchSSE r1).trace = messagesOf (fetchSSE r2).trace := by
  rw [fetchSSE_messages_eq r1 h1 hc1, fetchSSE_messages_eq r2 h2 hc2, hbytes]

def respC1alignedA : Response :=
  { status := 200, jsonBody := Except.error (),
    chunks := [[100, 97, 116, 97, 58, 32, 104, 105, 10, 10]], readFail := false }

def respC1alignedB : Response :=
  { status := 200, jsonBody := Except.error (),
    chunks := [[100, 97, 116, 97, 58, 32, 104], [105, 10, 10]], readFail := false }

theorem fetchSSE_chunking_invariance_aligned_witness :
    messagesOf (fetchSSE respC1alignedA).trace = messagesOf (fetchSSE respC1alignedB).trace :=
  fetchSSE_chunking_invariance_aligned respC1alignedA respC1alignedB rfl rfl
    (by decide) (by decide) (by decide)

/-! ### C2: callback discipline -/

/-- A non-success response whose body is not valid JSON: parsing it
rejects, so neither allowed outcome occurs. -/
def respC2err : Response :=
  { status := 429, jsonBody := Except.error (), chunks := [], readFail := false }

/-- C2 counterexample: an invocation with a non-success status and an
unparseable body performs no `onError` call and does not complete
normally, so the claimed exactly-one-of-two dichotomy fails as stated. -/
theorem fetchSSE_exactly_one_cex :
    ¬ exactlyOneOutcome (fetchSSE respC2err) ∧
    (errorsOf (fetchSSE respC2err).trace).length = 0 ∧
    completedOk (fetchSSE respC2err) = false := by
  decide

/-- C2 amended: in every invocation at most one `onError` call occurs and
message delivery and `onError` never both occur; in every invocation whose
promise resolves, exactly one of {messages followed by completion} or
{exactly one `onError` call} occurs.  (An invocation that rejects — a
malformed error body or a failing read — may deliver neither.) -/
theorem fetchSSE_callback_discipline (resp : Response) :
    (errorsOf (fetchSSE resp).trace).length ≤ 1 ∧
    (messagesOf (fetchSSE resp).trace = [] ∨ errorsOf (fetchSSE resp).trace = []) ∧
    (completedOk (fetchSSE resp) = true → exactlyOneOutcome (fetchSSE resp)) := by
  by_cases hs : resp.status = 200
  · have herr := fetchSSE_success_errorsOf resp hs
    refine ⟨by simp [herr], Or.inr herr, fun hok => Or.inl ⟨⟨hok, by simp [herr]⟩, ?_⟩⟩
    simp [singleError, herr]
  · cases hj : resp.jsonBody with
    | error e =>
      have hr : fetchSSE resp =
          { trace := [Act.statusCode resp.status], outcome := Except.error () } := by
        simp [fetchSSE, fetchSSEWith, hs, hj]
      refine ⟨?_, ?_, ?_⟩
      · rw [hr]; simp [errorsOf]
      · right; rw [hr]; simp [errorsOf]
      · intro hok; rw [hr] at hok; simp [completedOk] at hok
    | ok v =>
      have hr : fetchSSE resp =
          { trace := [Act.statusCode resp.status, Act.errorCb v],
            outcome := Except.ok () } := by
        simp [fetchSSE, fetchSSEWith, hs, hj]
      refine ⟨?_, ?_, fun hok => Or.inr ⟨?_, ?_⟩⟩
      · rw [hr]; simp [errorsOf]
      · left; rw [hr]; simp [messagesOf]
      · rw [hr]; simp [msgThenComplete, errorsOf]
      · rw [hr]; simp [singleError, errorsOf]

/-- A success response delivering one message, used to instantiate the
resolving case of the callback discipline. -/
def respC2ok : Response :=
  { status := 200, jsonBody := Except.error (),
    chunks := [[100, 97, 116, 97, 58, 120, 10, 10]], readFail := false }

theorem fetchSSE_callback_discipline_witness :
    exactlyOneOutcome (fetchSSE respC2ok) :=
  (fetchSSE_callback_discipline respC2ok).2.2 (by decide)

/-! ### C3: non-success status -/

/-- C3: on a non-success status with a parseable body, the whole trace is
the status callback followed by exactly one `onError` call carrying the
parsed object; the invocation resolves, no message is delivered and the
body is never read as a stream. -/
theorem fetchSSE_non_success_onError (resp : Response) (v : JsonVal)
    (hs : resp.status ≠ 200) (hj : resp.jsonBody = Except.ok v) :
    (fetchSSE resp).trace = [Act.statusCode resp.status, Act.errorCb v] ∧
    (fetchSSE resp).outcome = Except.ok () ∧
    messagesOf (fetchSSE resp).trace = [] ∧
    errorsOf (fetchSSE resp).trace = [v] ∧
    ((fetchSSE resp).trace).countP isReaderAct = 0 := by
  have hr : fetchSSE resp =
      { trace := [Act.statusCode resp.status, Act.errorCb v], outcome := Except.ok () } := by
    simp [fetchSSE, fetchSSEWith, hs, hj]
  rw [hr]
  refine ⟨rfl, rfl, rfl, rfl, ?_⟩
  simp [List.countP_cons, isReaderAct]

/-- The parsed object of the body, for a 429 response with body
text encoding the object with field error and value rate limited. -/
def vC3 : JsonVal :=
  JsonVal.obj [([101, 114, 114, 111, 114],
    JsonVal.str [114, 97, 116, 101, 32, 108, 105, 109, 105, 116, 101, 100])]

def respC3 : Response :=
  { status := 429, jsonBody := Except.ok vC3, chunks := [], readFail := false }

theorem fetchSSE_non_success_onError_witness :
    (fetchSSE respC3).trace = [Act.statusCode respC3.status, Act.errorCb vC3] ∧
    (fetchSSE respC3).outcome = Except.ok () ∧
    messagesOf (fetchSSE respC3).trace = [] ∧
    errorsOf (fetchSSE respC3).trace = [vC3] ∧
    ((fetchSSE respC3).trace).countP isReaderAct = 0 :=
  fetchSSE_non_success_onError respC3 vC3 (by decide) rfl

/-! ### C4: onStatusCode ordering -/

/-- C4: in every invocation the very first action is the `onStatusCode`
call with the literal status of the response, and no further
`onStatusCode` call occurs, so it comes before any `onMessage` or
`onError` call, on success and failure statuses alike. -/
theorem fetchSSE_statusCode_first (resp : Response) :
    (fetchSSE resp).trace.head? = some (Act.statusCode resp.status) ∧
    ((fetchSSE resp).trace).countP isStatusAct = 1 := by
  by_cases hs : resp.status = 200
  · have htrace : (fetchSSE resp).trace =
        Act.statusCode resp.status :: Act.getReader ::
          ((readLoop procStep sseInit resp.chunks resp.readFail).1 ++ [Act.releaseLock]) := by
      simp [fetchSSE, fetchSSEWith, hs]
    rw [htrace, readLoop_trace]
    refine ⟨rfl, ?_⟩
    simp [List.countP_cons, List.countP_append, isStatusAct,
      countP_map_message isStatusAct (fun d => rfl)]
  · cases hj : resp.jsonBody with
    | error e =>
      have hr : (fetchSSE resp).trace = [Act.statusCode resp.status] := by
        simp [fetchSSE, fetchSSEWith, hs, hj]
      rw [hr]
      exact ⟨rfl, by simp [List.countP_cons, isStatusAct]⟩
    | ok v =>
      have hr : (fetchSSE resp).trace =
          [Act.statusCode resp.status, Act.errorCb v] := by
        simp [fetchSSE, fetchSSEWith, hs, hj]
      rw [hr]
      exact ⟨rfl, by simp [List.countP_cons, isStatusAct]⟩

/-! ### C5: a payload split across two chunks -/

lemma processLine_data (p : List Nat) :
    processLine (100 :: 97 :: 116 :: 97 :: 58 :: 32 :: p) [] = (p ++ [10], []) := by
  simp [processLine, splitField, stripSpace, dataField]

lemma processLine_blank (p : List Nat) :
    processLine [] (p ++ [10]) = ([], [p]) := by
  simp [processLine, List.dropLast_concat]

/-- Feeding the text data-colon-space, then an arbitrary newline-free
payload, then a blank-line terminator, dispatches exactly that payload. -/
lemma sseFeed_data_record (p : List Nat) (h : ∀ c ∈ p, c ≠ 10 ∧ c ≠ 13) :
    (sseFeed sseInit (100 :: 97 :: 116 :: 97 :: 58 :: 32 :: (p ++ [10, 10]))).2 = [p] := by
  have hpre : ∀ c ∈ (100 :: 97 :: 116 :: 97 :: 58 :: 32 :: p : List Nat), c ≠ 10 ∧ c ≠ 13 := by
    intro c hc
    simp at hc
    rcases hc with rfl | rfl | rfl | rfl | rfl | rfl | hp
    · decide
    · decide
    · decide
    · decide
    · decide
    · decide
    · exact h c hp
  have hsplit : (100 :: 97 :: 116 :: 97 :: 58 :: 32 :: (p ++ [10, 10]) : List Nat)
      = (100 :: 97 :: 116 :: 97 :: 58 :: 32 :: p) ++ [10, 10] := by
    simp
  rw [hsplit, sseFeed_append, show sseInit = { line := [], data := [], sawCR := false } from rfl,
    sseFeed_plain hpre [] []]
  simp only [List.nil_append]
  simp [sseFeed, sseStep, processLine_data p, processLine_blank p]

/-- A 200 response whose single data record is split in the middle of its
payload: the first chunk carries data-colon-space and the first payload
half, the second chunk the second half and the blank-line terminator. -/
def mkSplitResp (p1 p2 : List Nat) : Response :=
  { status := 200, jsonBody := Except.error (),
    chunks := [[100, 97, 116, 97, 58, 32] ++ p1, p2 ++ [10, 10]], readFail := false }

/-- C5: when one record's payload spans two chunks, exactly one
`onMessage` call results, carrying the complete reassembled payload — a
partial line is never delivered early.  (Assumes a 7-bit newline-free
payload, so that only the split itself is at stake.) -/
theorem fetchSSE_split_payload (p1 p2 : List Nat)
    (h : ∀ c ∈ p1 ++ p2, c ≤ 0x7F ∧ c ≠ 10 ∧ c ≠ 13) :
    messagesOf (fetchSSE (mkSplitResp p1 p2)).trace = [p1 ++ p2] := by
  have h1 : ∀ c ∈ p1, c ≤ 0x7F ∧ c ≠ 10 ∧ c ≠ 13 :=
    fun c hc => h c (List.mem_append.2 (Or.inl hc))
  have h2 : ∀ c ∈ p2, c ≤ 0x7F ∧ c ≠ 10 ∧ c ≠ 13 :=
    fun c hc => h c (List.mem_append.2 (Or.inr hc))
  have hd1 : textDecode (100 :: 97 :: 116 :: 97 :: 58 :: 32 :: p1) =
      100 :: 97 :: 116 :: 97 :: 58 :: 32 :: p1 := by
    apply textDecode_ascii
    intro c hc
    simp at hc
    rcases hc with rfl | rfl | rfl | rfl | rfl | rfl | hp
    · decide
    · decide
    · decide
    · decide
    · decide
    · decide
    · exact (h1 c hp).1
  have hd2 : textDecode (p2 ++ [10, 10]) = p2 ++ [10, 10] := by
    apply textDecode_ascii
    intro c hc
    rcases List.mem_append.1 hc with hcl | hcr
    · exact (h2 c hcl).1
    · simp at hcr
      subst hcr
      decide
  have htrace : (fetchSSE (mkSplitResp p1 p2)).trace =
      Act.statusCode 200 :: Act.getReader ::
        ((readLoop procStep sseInit
            [[100, 97, 116, 97, 58, 32] ++ p1, p2 ++ [10, 10]] false).1 ++
          [Act.releaseLock]) := by
    simp [fetchSSE, fetchSSEWith, mkSplitResp]
  rw [htrace, readLoop_trace]
  have hflat : (([[100, 97, 116, 97, 58, 32] ++ p1, p2 ++ [10, 10]].map textDecode).flatten)
      = 100 :: 97 :: 116 :: 97 :: 58 :: 32 :: ((p1 ++ p2) ++ [10, 10]) := by
    simp [hd1, hd2, List.append_assoc]
  rw [hflat]
  show messagesOf
      (((sseFeed sseInit
            (100 :: 97 :: 116 :: 97 :: 58 :: 32 :: ((p1 ++ p2) ++ [10, 10]))).2).map
          Act.message ++ [Act.releaseLock]) = [p1 ++ p2]
  rw [messagesOf_append, messagesOf_map_message,
    sseFeed_data_record (p1 ++ p2) (fun c hc => (h c hc).2)]
  rfl

theorem fetchSSE_split_payload_witness :
    messagesOf (fetchSSE (mkSplitResp [104, 101, 108] [108, 111])).trace =
      [[104, 101, 108, 108, 111]] := by
  have hw := fetchSSE_split_payload [104, 101, 108] [108, 111] (by decide)
  simpa using hw

/-! ### C6: the read lock is released on every exit path -/

/-- C6: whenever the status is the success code the reader is acquired
exactly once and its lock is released exactly once — for the actual
per-chunk step of the source and for an arbitrary step, covering a step
that throws while decoding or feeding a chunk, and a read loop that ends
in a failing read. -/
theorem fetchSSE_releases_lock
    (step : SSEState → List Nat → Except Unit (SSEState × List (List Nat)))
    (resp : Response) (h : resp.status = 200) :
    ((fetchSSEWith step resp).trace).countP isReleaseAct = 1 ∧
    ((fetchSSEWith step resp).trace).countP isReaderAct = 1 ∧
    ((fetchSSE resp).trace).countP isReleaseAct = 1 := by
  have htr : ∀ st : SSEState → List Nat → Except Unit (SSEState × List (List Nat)),
      (fetchSSEWith st resp).trace =
        Act.statusCode resp.status :: Act.getReader ::
          ((readLoop st sseInit resp.chunks resp.readFail).1 ++ [Act.releaseLock]) := by
    intro st
    simp [fetchSSEWith, h]
  constructor
  · rw [htr step]
    simp [List.countP_cons, List.countP_append, isReleaseAct, readLoop_countP_release]
  constructor
  · rw [htr step]
    simp [List.countP_cons, List.countP_append, isReaderAct, readLoop_countP_reader]
  · rw [show (fetchSSE resp).trace = (fetchSSEWith procStep resp).trace from rfl, htr procStep]
    simp [List.countP_cons, List.countP_append, isReleaseAct, readLoop_countP_release]

/-- A step that always throws, modelling a decoder failing partway
through a chunk. -/
def stepThrow : SSEState → List Nat → Except Unit (SSEState × List (List Nat)) :=
  fun _ _ => Except.error ()

def respC6 : Response :=
  { status := 200, jsonBody := Except.error (), chunks := [[100, 97]], readFail := false }

theorem fetchSSE_releases_lock_witness :
    ((fetchSSEWith stepThrow respC6).trace).countP isReleaseAct = 1 ∧
    ((fetchSSEWith stepThrow respC6).trace).countP isReaderAct = 1 ∧
    ((fetchSSE respC6).trace).countP isReleaseAct = 1 :=
  fetchSSE_releases_lock stepThrow respC6 rfl

/-! ### C7: malformed error body -/

/-- C7: on a non-success status whose body fails to parse as JSON, the
invocation rejects (the parse error propagates to the caller) and no
`onError` or `onMessage` call occurs. -/
theorem fetchSSE_malformed_error_body (resp : Response)
    (hs : resp.status ≠ 200) (hj : resp.jsonBody = Except.error ()) :
    (fetchSSE resp).outcome = Except.error () ∧
    (fetchSSE resp).trace = [Act.statusCode resp.status] := by
  have hr : fetchSSE resp =
      { trace := [Act.statusCode resp.status], outcome := Except.error () } := by
    simp [fetchSSE, fetchSSEWith, hs, hj]
  rw [hr]
  exact ⟨rfl, rfl⟩

def respC7 : Response :=
  { status := 500, jsonBody := Except.error (), chunks := [], readFail := false }

theorem fetchSSE_malformed_error_body_witness :
    (fetchSSE respC7).outcome = Except.error () ∧
    (fetchSSE respC7).trace = [Act.statusCode respC7.status] :=
  fetchSSE_malformed_error_body respC7 (by decide) rfl

/-! ### The settings layer

The stored settings object read from `browser.storage.sync.get`.  A string
key that is absent is `none`; a boolean key may be undefined, null, or a
boolean, which strict-equality checks distinguish, so those are modelled
by a three-valued type.  `getSettings` is the in-place defaulting chain of
the source, one step per `if` statement, applied in source order;
`isTauri` abstracts the platform probe used by the `alwaysShowIcons`
default. -/

/-- A JavaScript value that is undefined, null or a boolean. -/
inductive JsPrim where
  | undef : JsPrim
  | null : JsPrim
  | jb (b : Bool) : JsPrim
deriving DecidableEq

/-- JavaScript truthiness of a `JsPrim`: undefined, null and false are
falsy. -/
def jsTruthy : JsPrim → Bool
  | JsPrim.undef => false
  | JsPrim.null => false
  | JsPrim.jb b => b

/-- The JavaScript not operator applied to a `JsPrim`: always a boolean. -/
def jsNot (p : JsPrim) : Bool := !(jsTruthy p)

/-- JavaScript truthiness of a possibly-absent string: absent and empty
are falsy. -/
def truthyStr : Option (List Nat) → Bool
  | none => false
  | some [] => false
  | some (_ :: _) => true

/-- The stored settings record, one field per key of `settingKeys`. -/
structure Settings where
  apiKeys : Option (List Nat)
  apiURL : Option (List Nat)
  apiURLPath : Option (List Nat)
  apiModel : Option (List Nat)
  provider : Option (List Nat)
  autoTranslate : JsPrim
  chatContext : JsPrim
  defaultTranslateMode : Option (List Nat)
  defaultSourceLanguage : Option (List Nat)
  defaultTargetLanguage : Option (List Nat)
  defaultYouglishLanguage : Option (List Nat)
  alwaysShowIcons : JsPrim
  hotkey : Option (List Nat)
  ocrHotkey : Option (List Nat)
  themeType : Option (List Nat)
  i18n : Option (List Nat)
  tts : Option (List Nat)
  restorePreviousPosition : JsPrim
  runAtStartup : JsPrim
  selectInputElementsText : JsPrim
  disableCollectingStatistics : JsPrim
  allowUsingClipboardWhenSelectedTextNotAvailable : JsPrim
deriving DecidableEq

/-- Code points of a string literal. -/
def strCodes (s : String) : List Nat := s.toList.map Char.toNat

def defaultAPIURL : List Nat := strCodes "https://api.openai.com"
def defaultAPIURLPath : List Nat := strCodes "/v1/chat/completions"
def defaultProvider : List Nat := strCodes "OpenAI"
def defaultAPIModel : List Nat := strCodes "gpt-3.5-turbo"
def defaultChatContext : Bool := true
def defaultAutoTranslate : Bool := false
def defaultTargetLanguage : List Nat := strCodes "zh-Hans"
def defaultSourceLanguage : List Nat := strCodes "en"
def defaultYouglishLanguage : List Nat := strCodes "en"
def defaultSelectInputElementsText : Bool := true
def defaulti18n : List Nat := strCodes "en"

def stepApiKeys (s : Settings) : Settings :=
  if ¬ truthyStr s.apiKeys then { s with apiKeys := some [] } else s

def stepApiURL (s : Settings) : Settings :=
  if ¬ truthyStr s.apiURL then { s with apiURL := some defaultAPIURL } else s

def stepApiURLPath (s : Settings) : Settings :=
  if ¬ truthyStr s.apiURLPath then { s with apiURLPath := some defaultAPIURLPath } else s

def stepApiModel (s : Settings) : Settings :=
  if ¬ truthyStr s.apiModel then { s with apiModel := some defaultAPIModel } else s

def stepProvider (s : Settings) : Settings :=
  if ¬ truthyStr s.provider then { s with provider := some defaultProvider } else s

def stepAutoTranslate (s : Settings) : Settings :=
  if s.autoTranslate = JsPrim.undef ∨ s.autoTranslate = JsPrim.null then
    { s with autoTranslate := JsPrim.jb defaultAutoTranslate }
  else s

/-- The chatContext line of the source compares the boolean value of
not-chatContext against undefined with strict equality (so the left
disjunct is a boolean-versus-undefined comparison) and compares
autoTranslate — just defaulted by the previous statement — against null. -/
def stepChatContext (s : Settings) : Settings :=
  if JsPrim.jb (jsNot s.chatContext) = JsPrim.undef ∨ s.autoTranslate = JsPrim.null then
    { s with chatContext := JsPrim.jb defaultChatContext }
  else s

def stepDefaultTranslateMode (s : Settings) : Settings :=
  if ¬ truthyStr s.defaultTranslateMode then
    { s with defaultTranslateMode := some (strCodes "translate") }
  else s

def stepDefaultSourceLanguage (s : Settings) : Settings :=
  if ¬ truthyStr s.defaultSourceLanguage then
    { s with defaultSourceLanguage := some defaultSourceLanguage }
  else s

def stepDefaultTargetLanguage (s : Settings) : Settings :=
  if ¬ truthyStr s.defaultTargetLanguage then
    { s with defaultTargetLanguage := some defaultTargetLanguage }
  else s

def stepDefaultYouglishLanguage (s : Settings) : Settings :=
  if ¬ truthyStr s.defaultYouglishLanguage then
    { s with defaultYouglishLanguage := some defaultYouglishLanguage }
  else s

def stepAlwaysShowIcons (isTauri : Bool) (s : Settings) : Settings :=
  if s.alwaysShowIcons = JsPrim.undef ∨ s.alwaysShowIcons = JsPrim.null then
    { s with alwaysShowIcons := JsPrim.jb (!isTauri) }
  else s

def stepI18n (s : Settings) : Settings :=
  if ¬ truthyStr s.i18n then { s with i18n := some defaulti18n } else s

def stepDisableCollectingStatistics (s : Settings) : Settings :=
  if ¬ jsTruthy s.disableCollectingStatistics then
    { s with disableCollectingStatistics := JsPrim.jb false }
  else s

def stepSelectInputElementsText (s : Settings) : Settings :=
  if s.selectInputElementsText = JsPrim.undef ∨ s.selectInputElementsText = JsPrim.null then
    { s with selectInputElementsText := JsPrim.jb defaultSelectInputElementsText }
  else s

def stepThemeType (s : Settings) : Settings :=
  if ¬ truthyStr s.themeType then { s with themeType := some (strCodes "followTheSystem") } else s

/-- `getSettings`: the defaulting statements of the source applied in
order to the stored record. -/
def getSettings (isTauri : Bool) (s : Settings) : Settings :=
  stepThemeType (stepSelectInputElementsText (stepDisableCollectingStatistics (stepI18n
    (stepAlwaysShowIcons isTauri (stepDefaultYouglishLanguage (stepDefaultTargetLanguage
    (stepDefaultSourceLanguage (stepDefaultTranslateMode (stepChatContext (stepAutoTranslate
    (stepProvider (stepApiModel (stepApiURLPath (stepApiURL (stepApiKeys s)))))))))))))))

/-- JavaScript `String.prototype.split` on a comma: never empty, and the
empty string splits to one empty entry. -/
def splitComma : List Nat → List (List Nat)
  | [] => [[]]
  | c :: rest =>
    match splitComma rest with
    | [] => [[]]
    | g :: gs => if c = 44 then [] :: g :: gs else (c :: g) :: gs

/-- The whitespace characters removed by `String.prototype.trim`
(the ascii ones; the source strings are ascii). -/
def jsWhitespace (c : Nat) : Bool :=
  c == 32 || c == 9 || c == 10 || c == 13 || c == 11 || c == 12

/-- JavaScript `String.prototype.trim`: drop whitespace from both ends. -/
def jsTrim (l : List Nat) : List Nat :=
  ((l.dropWhile jsWhitespace).reverse.dropWhile jsWhitespace).reverse

/-- `getApiKey`: read the settings, split `apiKeys` (defaulting a nullish
value to the empty string) on commas, trim every entry and pick the entry
at the random index `i`, where `i` models the value of
`Math.floor(Math.random() * apiKeys.length)`; an out-of-range index gives
undefined, which the trailing nullish-coalescing turns into the empty
string. -/
def getApiKey (isTauri : Bool) (stored : Settings) (i : Nat) : List Nat :=
  let settings := getSettings isTauri stored
  let apiKeys := (splitComma (settings.apiKeys.getD [])).map jsTrim
  apiKeys.getD i []

/-! ### The JSON import helper -/

/-- Whether a parsed JSON value has a slice method (arrays and strings
do); the logging call of the source invokes `slice` on the parsed value
before the array check, so a value without it throws there. -/
def jsHasSlice : JsonVal → Bool
  | JsonVal.arr _ => true
  | JsonVal.str _ => true
  | _ => false

def isArrayVal : JsonVal → Bool
  | JsonVal.arr _ => true
  | _ => false

/-- The try block of `jsonToActions`, on the parse result of the file
content (`Except.error ()` models content that is not valid JSON, so that
`JSON.parse` throws): log a slice of the parsed value (throws on a value
with no slice method), throw on a non-array, return the array. -/
def jsonToActionsTry (content : Except Unit JsonVal) : Except Unit (List JsonVal) :=
  match content with
  | Except.error e => Except.error e
  | Except.ok parsed =>
    if jsHasSlice parsed = false then Except.error ()
    else
      match parsed with
      | JsonVal.arr xs => Except.ok xs
      | _ => Except.error ()

/-- `jsonToActions`: the try block with the catch-all handler that maps
every failure to the empty array. -/
def jsonToActions (content : Except Unit JsonVal) : List JsonVal :=
  match jsonToActionsTry content with
  | Except.ok xs => xs
  | Except.error _ => []

/-! ### C8: jsonToActions is total -/

/-- C8: `jsonToActions` never rejects: modelled as a total function, it
returns the parsed array when the content parses to an array, and the
empty array both when the parsed value is not an array and when the
content is not valid JSON. -/
theorem jsonToActions_total_behavior (content : Except Unit JsonVal) :
    (∀ xs, content = Except.ok (JsonVal.arr xs) → jsonToActions content = xs) ∧
    (∀ v, content = Except.ok v → isArrayVal v = false → jsonToActions content = []) ∧
    (∀ e, content = Except.error e → jsonToActions content = []) := by
  refine ⟨?_, ?_, ?_⟩
  · intro xs h
    subst h
    rfl
  · intro v h hv
    subst h
    cases v <;> simp_all [jsonToActions, jsonToActionsTry, jsHasSlice, isArrayVal]
  · intro e h
    subst h
    rfl

theorem jsonToActions_total_behavior_witness :
    jsonToActions (Except.ok (JsonVal.arr [JsonVal.num 7])) = [JsonVal.num 7] ∧
    jsonToActions (Except.ok (JsonVal.num 3)) = [] ∧
    jsonToActions (Except.error ()) = [] :=
  ⟨(jsonToActions_total_behavior (Except.ok (JsonVal.arr [JsonVal.num 7]))).1
      [JsonVal.num 7] rfl,
   (jsonToActions_total_behavior (Except.ok (JsonVal.num 3))).2.1 (JsonVal.num 3) rfl rfl,
   (jsonToActions_total_behavior (Except.error ())).2.2 () rfl⟩

/-! ### C9: chatContext is never defaulted -/

/-- C9: when the stored chatContext is undefined (and the stored
autoTranslate is not null), `getSettings` leaves chatContext undefined —
its default is never applied, because the defaulting condition compares a
boolean against undefined and reads autoTranslate after it was itself
defaulted — while apiURL, apiModel and provider do receive their defaults
when absent. -/
theorem getSettings_chatContext_never_defaulted (isT : Bool) (s : Settings)
    (hc : s.chatContext = JsPrim.undef) (ha : s.autoTranslate ≠ JsPrim.null) :
    (getSettings isT s).chatContext = JsPrim.undef ∧
    (s.apiURL = none → (getSettings isT s).apiURL = some defaultAPIURL) ∧
    (s.apiModel = none → (getSettings isT s).apiModel = some defaultAPIModel) ∧
    (s.provider = none → (getSettings isT s).provider = some defaultProvider) := by
  refine ⟨?_, ?_, ?_, ?_⟩
  · simp only [getSettings, stepThemeType, stepSelectInputElementsText,
      stepDisableCollectingStatistics, stepI18n, stepAlwaysShowIcons,
      stepDefaultYouglishLanguage, stepDefaultTargetLanguage, stepDefaultSourceLanguage,
      stepDefaultTranslateMode, stepChatContext, stepAutoTranslate, stepProvider,
      stepApiModel, stepApiURLPath, stepApiURL, stepApiKeys,
      apply_ite Settings.chatContext, apply_ite Settings.autoTranslate, ite_self]
    simp [hc, ha]
    cases hA : s.autoTranslate with
    | undef => simp
    | null => exact absurd hA ha
    | jb b => simp [hA]
  · intro hu
    simp only [getSettings, stepThemeType, stepSelectInputElementsText,
      stepDisableCollectingStatistics, stepI18n, stepAlwaysShowIcons,
      stepDefaultYouglishLanguage, stepDefaultTargetLanguage, stepDefaultSourceLanguage,
      stepDefaultTranslateMode, stepChatContext, stepAutoTranslate, stepProvider,
      stepApiModel, stepApiURLPath, stepApiURL, stepApiKeys,
      apply_ite Settings.apiURL, ite_self]
    simp [hu, truthyStr]
  · intro hu
    simp only [getSettings, stepThemeType, stepSelectInputElementsText,
      stepDisableCollectingStatistics, stepI18n, stepAlwaysShowIcons,
      stepDefaultYouglishLanguage, stepDefaultTargetLanguage, stepDefaultSourceLanguage,
      stepDefaultTranslateMode, stepChatContext, stepAutoTranslate, stepProvider,
      stepApiModel, stepApiURLPath, stepApiURL, stepApiKeys,
      apply_ite Settings.apiModel, ite_self]
    simp [hu, truthyStr]
  · intro hu
    simp only [getSettings, stepThemeType, stepSelectInputElementsText,
      stepDisableCollectingStatistics, stepI18n, stepAlwaysShowIcons,
      stepDefaultYouglishLanguage, stepDefaultTargetLanguage, stepDefaultSourceLanguage,
      stepDefaultTranslateMode, stepChatContext, stepAutoTranslate, stepProvider,
      stepApiModel, stepApiURLPath, stepApiURL, stepApiKeys,
      apply_ite Settings.provider, ite_self]
    simp [hu, truthyStr]

/-- A stored record with chatContext undefined and the three string keys
absent. -/
def storedC9 : Settings :=
  { apiKeys := some (strCodes "k1,k2"), apiURL := none, apiURLPath := none,
    apiModel := none, provider := none, autoTranslate := JsPrim.jb false,
    chatContext := JsPrim.undef, defaultTranslateMode := none,
    defaultSourceLanguage := none, defaultTargetLanguage := none,
    defaultYouglishLanguage := none, alwaysShowIcons := JsPrim.undef,
    hotkey := none, ocrHotkey := none, themeType := none, i18n := none,
    tts := none, restorePreviousPosition := JsPrim.undef, runAtStartup := JsPrim.undef,
    selectInputElementsText := JsPrim.undef, disableCollectingStatistics := JsPrim.undef,
    allowUsingClipboardWhenSelectedTextNotAvailable := JsPrim.undef }

theorem getSettings_chatContext_never_defaulted_witness :
    (getSettings false storedC9).chatContext = JsPrim.undef ∧
    (getSettings false storedC9).apiURL = some defaultAPIURL ∧
    (getSettings false storedC9).apiModel = some defaultAPIModel ∧
    (getSettings false storedC9).provider = some defaultProvider := by
  have h := getSettings_chatContext_never_defaulted false storedC9 rfl (by decide)
  exact ⟨h.1, h.2.1 rfl, h.2.2.1 rfl, h.2.2.2 rfl⟩

/-! ### C10: getApiKey returns a split-and-trimmed entry -/

lemma getD_default_or_mem {α : Type} (l : List α) (i : Nat) (d : α) :
    l.getD i d = d ∨ l.getD i d ∈ l := by
  induction l generalizing i with
  | nil => left; simp [List.getD]
  | cons x xs ih =>
    cases i with
    | zero => right; simp
    | succ n =>
      rcases ih n with h | h
      · left
        simpa using h
      · right
        simp only [List.getD_cons_succ]
        exact List.mem_cons_of_mem x h

/-- C10: whatever the random index, `getApiKey` returns the empty string
or one of the entries obtained by splitting the settings `apiKeys` on
commas and trimming each entry; and when that string is empty the result
is the empty string. -/
theorem getApiKey_membership (isT : Bool) (stored : Settings) (i : Nat) :
    (getApiKey isT stored i = [] ∨
      getApiKey isT stored i ∈
        (splitComma (((getSettings isT stored).apiKeys).getD [])).map jsTrim) ∧
    ((getSettings isT stored).apiKeys = some [] → getApiKey isT stored i = []) := by
  constructor
  · exact getD_default_or_mem
      ((splitComma (((getSettings isT stored).apiKeys).getD [])).map jsTrim) i []
  · intro h
    show ((splitComma (((getSettings isT stored).apiKeys).getD [])).map jsTrim).getD i [] = []
    rw [h]
    cases i <;> rfl

/-- A stored record whose apiKeys holds two entries with stray spaces. -/
def storedC10 : Settings :=
  { apiKeys := some (strCodes " a, b "), apiURL := none, apiURLPath := none,
    apiModel := none, provider := none, autoTranslate := JsPrim.undef,
    chatContext := JsPrim.undef, defaultTranslateMode := none,
    defaultSourceLanguage := none, defaultTargetLanguage := none,
    defaultYouglishLanguage := none, alwaysShowIcons := JsPrim.undef,
    hotkey := none, ocrHotkey := none, themeType := none, i18n := none,
    tts := none, restorePreviousPosition := JsPrim.undef, runAtStartup := JsPrim.undef,
    selectInputElementsText := JsPrim.undef, disableCollectingStatistics := JsPrim.undef,
    allowUsingClipboardWhenSelectedTextNotAvailable := JsPrim.undef }

/-- A stored record with no apiKeys at all: `getSettings` defaults the
field to the empty string. -/
def storedC10empty : Settings :=
  { apiKeys := none, apiURL := none, apiURLPath := none,
    apiModel := none, provider := none, autoTranslate := JsPrim.undef,
    chatContext := JsPrim.undef, defaultTranslateMode := none,
    defaultSourceLanguage := none, defaultTargetLanguage := none,
    defaultYouglishLanguage := none, alwaysShowIcons := JsPrim.undef,
    hotkey := none, ocrHotkey := none, themeType := none, i18n := none,
    tts := none, restorePreviousPosition := JsPrim.undef, runAtStartup := JsPrim.undef,
    selectInputElementsText := JsPrim.undef, disableCollectingStatistics := JsPrim.undef,
    allowUsingClipboardWhenSelectedTextNotAvailable := JsPrim.undef }

theorem getApiKey_membership_witness :
    (getApiKey false storedC10 1 = [] ∨
      getApiKey false storedC10 1 ∈
        (splitComma (((getSettings false storedC10).apiKeys).getD [])).map jsTrim) ∧
    getApiKey false storedC10empty 3 = [] :=
  ⟨(getApiKey_membership false storedC10 1).1,
   (getApiKey_membership false storedC10empty 3).2 (by decide)⟩

end GptTutor
